import Mathlib

/-!
# Verification of the dm-to-date event-extraction pipeline

Shallow embedding of the Supabase edge functions of the repository:
the OCR-text event extractor (`parseEventFromText`), the confidence
policy (`needs_confirmation` expression of `createDraftEvent`), the
quick-reply / auto-commit decision (`sendQuickReplies`) and the
calendar commit handler (`create-calendar-event`'s `Deno.serve` body,
`buildGoogleEvent`).

Conventions:
* JavaScript strings are Lean `String`s; optional string fields are
  `String` with `""` standing for `undefined`/absent (the source only
  tests these fields for truthiness, and `""` is falsy, so the two are
  indistinguishable there).
* JavaScript numbers used for the confidence score are modelled as `ℚ`;
  every literal in the source (0.5, 0.1, 0.2, 0.3, 0.8, 1.0) and every
  sum of them that the pipeline can build is exact in ℚ (the float
  roundings of these dyadic-adjacent sums do not change any comparison
  made by the code).
* Epoch timestamps (`Date.getTime()` milliseconds) are `Int`.
* The platform's `new Date(string)` parser is a parameter
  `jsDate : String → Option Int` (`none` = Invalid Date).  Crucially,
  `new Date(string)` never throws: invalid input yields an Invalid
  Date, which the source detects with the `isNaN(getTime())` guard.
  The `catch` arms of the source are therefore unreachable except where
  `toISOString()` (which does throw on an Invalid Date) is inside the
  `try`; the embedding reflects this.
-/

set_option maxRecDepth 2048

/-! ## Basic string helpers (JS semantics) -/

/-- JS whitespace (`\s`, `trim`): space, tab, newline, CR, VT, FF, NBSP. -/
def isJsSpace (c : Char) : Bool :=
  c == ' ' || c == '\t' || c == '\n' || c == '\r' ||
  c.toNat == 11 || c.toNat == 12 || c.toNat == 160

/-- Substring occurrence test on character lists. -/
def containsSubL (pat : List Char) : List Char → Bool
  | [] => pat.isEmpty
  | c :: rest => pat.isPrefixOf (c :: rest) || containsSubL pat rest

/-- JS `s.includes(pat)`. -/
def jsIncludes (s pat : String) : Bool :=
  containsSubL pat.data s.data

/-- JS `s.trim()`. -/
def jsTrim (s : String) : String :=
  ⟨((s.data.dropWhile isJsSpace).reverse.dropWhile isJsSpace).reverse⟩

/-- JS `s.split('\n')` on the character list. -/
def splitNL (s : List Char) : List (List Char) :=
  match s with
  | [] => [[]]
  | '\n' :: rest => [] :: splitNL rest
  | c :: rest =>
    match splitNL rest with
    | seg :: segs => (c :: seg) :: segs
    | [] => [[c]]

/-- Line 919: `text.split('\n').map(l => l.trim()).filter(l => l.length > 0)`. -/
def splitLines (text : String) : List String :=
  (((splitNL text.data).map fun l => jsTrim ⟨l⟩).filter fun l =>
    decide (0 < l.length))

/-- JS `s.toLowerCase()` (ASCII inputs). -/
def toLowerStr (s : String) : String :=
  ⟨s.data.map Char.toLower⟩

/-- JS `array.join('\n')`. -/
def joinNL : List String → String
  | [] => ""
  | [l] => l
  | l :: rest => l ++ "\n" ++ joinNL rest

/-- Case-insensitive character comparison (ASCII, as used by the `i` flag here). -/
def ciChar (a b : Char) : Bool := a.toLower == b.toLower

/-- Case-insensitive prefix test. -/
def ciPrefix : List Char → List Char → Bool
  | [], _ => true
  | _ :: _, [] => false
  | p :: ps, c :: cs => ciChar p c && ciPrefix ps cs

/-! ## Calendar arithmetic: `Date#toISOString` and a concrete `new Date` model

`toISOString` renders a (valid) epoch-millisecond timestamp as
`YYYY-MM-DDTHH:mm:ss.sssZ`.  Civil-date conversion uses the standard
era-based algorithm on floor division. -/

/-- Civil date (year, month 1-12, day 1-31) from days since 1970-01-01. -/
def civilFromDays (z0 : Int) : Int × Nat × Nat :=
  let z := z0 + 719468
  let era := z.ediv 146097
  let doe := (z - era * 146097).toNat
  let yoe := (doe - doe / 1460 + doe / 36524 - doe / 146096) / 365
  let y := (yoe : Int) + era * 400
  let doy := doe - (365 * yoe + yoe / 4 - yoe / 100)
  let mp := (5 * doy + 2) / 153
  let d := doy - (153 * mp + 2) / 5 + 1
  let m := if mp < 10 then mp + 3 else mp - 9
  (if m ≤ 2 then y + 1 else y, m, d)

/-- Days since 1970-01-01 from a civil date. -/
def daysFromCivil (y0 : Int) (m d : Nat) : Int :=
  let y := if m ≤ 2 then y0 - 1 else y0
  let era := y.ediv 400
  let yoe := (y - era * 400).toNat
  let doy := (153 * (if 2 < m then m - 3 else m + 9) + 2) / 5 + d - 1
  let doe := yoe * 365 + yoe / 4 - yoe / 100 + doy
  era * 146097 + (doe : Int) - 719468

def pad2 (n : Nat) : String := if n < 10 then "0" ++ toString n else toString n

def pad3 (n : Nat) : String :=
  if n < 10 then "00" ++ toString n
  else if n < 100 then "0" ++ toString n else toString n

def pad4 (n : Nat) : String :=
  if n < 10 then "000" ++ toString n
  else if n < 100 then "00" ++ toString n
  else if n < 1000 then "0" ++ toString n else toString n

/-- Rendering of `Date#toISOString` on an epoch-millisecond value (years 0-9999). -/
def toISOString (t : Int) : String :=
  let days := t.ediv 86400000
  let rem := (t.emod 86400000).toNat
  let c := civilFromDays days
  let datePart := pad4 c.1.toNat ++ "-" ++ pad2 c.2.1 ++ "-" ++ pad2 c.2.2
  let timePart :=
    pad2 (rem / 3600000) ++ ":" ++ pad2 (rem % 3600000 / 60000) ++ ":" ++
    pad2 (rem % 60000 / 1000) ++ "." ++ pad3 (rem % 1000) ++ "Z"
  datePart ++ "T" ++ timePart

def isLeap (y : Int) : Bool :=
  (y % 4 == 0 && y % 100 != 0) || y % 400 == 0

def daysInMonth (y : Int) (m : Nat) : Nat :=
  if m == 2 then (if isLeap y then 29 else 28)
  else if m == 4 || m == 6 || m == 9 || m == 11 then 30 else 31

/-- Digits of a leading run, as a number, with the rest. -/
def takeDigits (s : List Char) : Nat × Nat × List Char :=
  match s with
  | c :: rest =>
    if c.isDigit then
      let r := takeDigits rest
      ((c.toNat - 48) * 10 ^ r.2.1 + r.1, r.2.1 + 1, r.2.2)
    else (0, 0, s)
  | [] => (0, 0, [])

/-- Exactly `k` digits from the front, as a number, with the rest. -/
def fixedDigits (k : Nat) (s : List Char) : Option (Nat × List Char) :=
  match k with
  | 0 => some (0, s)
  | k + 1 =>
    match s with
    | c :: rest =>
      if c.isDigit then
        (fixedDigits k rest).map fun r => (r.1 + (c.toNat - 48) * 10 ^ k, r.2)
      else none
    | [] => none

/-- Model of the ECMAScript `new Date(string)` parser, ISO branch:
`YYYY-MM-DDTHH:MM:SS(.mmm)?Z`, interpreted as UTC. -/
def parseIsoDate (s : List Char) : Option Int := do
  let (y, s) ← fixedDigits 4 s
  let s ← if s.head? = some '-' then some s.tail else none
  let (mo, s) ← fixedDigits 2 s
  let s ← if s.head? = some '-' then some s.tail else none
  let (d, s) ← fixedDigits 2 s
  let s ← if s.head? = some 'T' then some s.tail else none
  let (h, s) ← fixedDigits 2 s
  let s ← if s.head? = some ':' then some s.tail else none
  let (mi, s) ← fixedDigits 2 s
  let s ← if s.head? = some ':' then some s.tail else none
  let (ss, s) ← fixedDigits 2 s
  let (ms, s) ←
    match s with
    | '.' :: rest => (fixedDigits 3 rest).map fun r => (r.1, r.2)
    | _ => some (0, s)
  let _ ← if s = ['Z'] then some () else none
  if 1 ≤ mo ∧ mo ≤ 12 ∧ 1 ≤ d ∧ d ≤ daysInMonth y mo ∧ h ≤ 23 ∧ mi ≤ 59 ∧ ss ≤ 59
  then
    some (daysFromCivil y mo d * 86400000 +
          (h * 3600000 + mi * 60000 + ss * 1000 + ms : Nat))
  else none

/-- Model of the legacy (V8) `new Date(string)` branch used by the code's
inputs: `M/D/YYYY`, optionally followed by ` H:MM am/pm`, read in the
server's timezone (the Deno deploy runs in UTC). -/
def parseSlashDate (s : List Char) : Option Int := do
  let (mo, k1, s) := takeDigits s
  let _ ← if 1 ≤ k1 ∧ k1 ≤ 2 then some () else none
  let s ← if s.head? = some '/' then some s.tail else none
  let (d, k2, s) := takeDigits s
  let _ ← if 1 ≤ k2 ∧ k2 ≤ 2 then some () else none
  let s ← if s.head? = some '/' then some s.tail else none
  let (y, k3, s) := takeDigits s
  let _ ← if k3 = 4 then some () else none
  let _ ← if 1 ≤ mo ∧ mo ≤ 12 ∧ 1 ≤ d ∧ d ≤ daysInMonth y mo then some () else none
  let hm ←
    match s with
    | [] => some 0
    | _ => do
      let sp := s.takeWhile isJsSpace
      let _ ← if sp.isEmpty then none else some ()
      let s := s.dropWhile isJsSpace
      let (h, kh, s) := takeDigits s
      let _ ← if 1 ≤ kh ∧ kh ≤ 2 ∧ 1 ≤ h ∧ h ≤ 12 then some () else none
      let s ← if s.head? = some ':' then some s.tail else none
      let (mi, km, s) := takeDigits s
      let _ ← if km = 2 ∧ mi ≤ 59 then some () else none
      let s := s.dropWhile isJsSpace
      match s with
      | [a, m] =>
        if ciChar m 'm' then
          if ciChar a 'a' then some ((if h = 12 then 0 else h) * 3600000 + mi * 60000)
          else if ciChar a 'p' then
            some ((if h = 12 then 12 else h + 12) * 3600000 + mi * 60000)
          else none
        else none
      | _ => none
  some (daysFromCivil y mo d * 86400000 + (hm : Nat))

/-- Concrete model of `new Date(string)` covering exactly the formats the
concrete inputs of this development exercise (ISO strings, which the
code itself produces via `toISOString`, and the legacy `M/D/YYYY`
(+ time) form); every other string is an Invalid Date (`none`).  `new
Date` never throws on a string argument. -/
def jsDateModel (s : String) : Option Int :=
  (parseIsoDate s.data).orElse fun _ => parseSlashDate s.data

/-! ## The regular expressions of `parseEventFromText`

Each `/.../` literal of the source is implemented as a hand-rolled
matcher with JavaScript `String#match` semantics: leftmost position
first, alternatives in written order, greedy quantifiers with
backtracking.  Each matcher returns the string the enclosing code
actually consumes — `match[1] || match[0]` for the date/time cascade
(every one of those regexes has a non-empty group 1 when it matches, so
this is group 1), and `match[1]` for the location patterns. -/

/-- Try `f` at every position of the input, leftmost match first. -/
def scanPos (f : List Char → Option (List Char)) : List Char → Option (List Char)
  | [] => f []
  | c :: cs => (f (c :: cs)).orElse fun _ => scanPos f (c :: cs).tail

/-- First alternative (in written order) that matches. -/
def firstSome (l : List α) (f : α → Option β) : Option β :=
  match l with
  | [] => none
  | a :: r => (f a).orElse fun _ => firstSome r f

/-- The tail `:\s*([^,\n]+)` of the labelled patterns, applied after a
label alternative has matched.  `\s*` is greedy; if the greedy run
leaves no legal first character for `([^,\n]+)` (end of line, or a
comma), backtracking hands the last whitespace character back to the
group. -/
def captureAfterLabel (s : List Char) : Option (List Char) :=
  match s with
  | ':' :: rest =>
    let ws := rest.takeWhile isJsSpace
    let tail := rest.dropWhile isJsSpace
    let grp := tail.takeWhile (fun c => !(c == ','))
    if !grp.isEmpty then some grp
    else
      match ws.getLast? with
      | some c => some [c]
      | none => none
  | _ => none

/-- Matcher for `/(?:lab₁|lab₂|…):\s*([^,\n]+)/i`, returning group 1. -/
def labelMatcher (labels : List String) (line : String) : Option String :=
  (scanPos
    (fun s =>
      firstSome labels fun lab =>
        if ciPrefix lab.data s then captureAfterLabel (s.drop lab.length)
        else none)
    line.data).map fun l => ⟨l⟩

/-- Line 943: `/(?:date|when):\s*([^,\n]+)/i`, `matchedText = match[1]`. -/
def rxDateWhen (line : String) : Option String :=
  labelMatcher ["date", "when"] line

/-- Line 944: `/(?:time):\s*([^,\n]+)/i`. -/
def rxTimeLabel (line : String) : Option String :=
  labelMatcher ["time"] line

def weekdayNames : List String :=
  ["monday", "tuesday", "wednesday", "thursday", "friday", "saturday", "sunday"]

/-- Line 945: `/(monday|…|sunday)[,\s]+([^,\n]+)/i`.  `matchedText` is
`match[1]`: the weekday as it appears in the input.  `[,\s]+` is
greedy; group 2 needs one non-comma character, either right after the
separator run or (by backtracking, keeping at least one separator
character) at a whitespace character inside the run. -/
def rxWeekday (line : String) : Option String :=
  (scanPos
    (fun s =>
      firstSome weekdayNames fun w =>
        if ciPrefix w.data s then
          let rest := s.drop w.length
          let sep := rest.takeWhile fun c => c == ',' || isJsSpace c
          let tail := rest.dropWhile fun c => c == ',' || isJsSpace c
          if !sep.isEmpty && (!tail.isEmpty || (sep.drop 1).any isJsSpace) then
            some (s.take w.length)
          else none
        else none)
    line.data).map fun l => ⟨l⟩

/-- Matcher for `\d{1,2}` followed by the literal `sep`: greedy, two digits first,
then one.  Returns the digits and the rest after the separator. -/
def digits12Then (sep : Char) (s : List Char) : Option (List Char × List Char) :=
  match s with
  | c1 :: c2 :: c3 :: rest =>
    if c1.isDigit && c2.isDigit && c3 == sep then some ([c1, c2], rest)
    else if c1.isDigit && c2 == sep then some ([c1], c3 :: rest)
    else none
  | [c1, c2] => if c1.isDigit && c2 == sep then some ([c1], []) else none
  | _ => none

/-- Line 946: `/(\d{1,2}\/\d{1,2}\/\d{4})/`; group 1 is the whole match. -/
def rxSlashDate (line : String) : Option String :=
  (scanPos
    (fun s => do
      let (d1, r1) ← digits12Then '/' s
      let (d2, r2) ← digits12Then '/' r1
      match r2 with
      | a :: b :: c :: d :: _ =>
        if a.isDigit && b.isDigit && c.isDigit && d.isDigit then
          some (d1 ++ '/' :: d2 ++ '/' :: [a, b, c, d])
        else none
      | _ => none)
    line.data).map fun l => ⟨l⟩

/-- Lines 947 and 980: `/(\d{1,2}:\d{2}\s*(?:am|pm))/i`; group 1 is the
whole match.  After `\s*` the literal `am`/`pm` must follow; handing
whitespace back cannot create an `a`/`p`, so no backtracking arises. -/
def rxTime (line : String) : Option String :=
  (scanPos
    (fun s => do
      let (hh, r1) ← digits12Then ':' s
      let (mm, r2) ←
        match r1 with
        | a :: b :: rest =>
          if a.isDigit && b.isDigit then some ([a, b], rest) else none
        | _ => none
      let ws := r2.takeWhile isJsSpace
      let r3 := r2.dropWhile isJsSpace
      match r3 with
      | a :: m :: _ =>
        if (ciChar a 'a' || ciChar a 'p') && ciChar m 'm' then
          some (hh ++ ':' :: mm ++ ws ++ [a, m])
        else none
      | _ => none)
    line.data).map fun l => ⟨l⟩

def monthNames : List String :=
  ["january", "february", "march", "april", "may", "june", "july",
   "august", "september", "october", "november", "december"]

/-- Matcher for `,?\s+\d{4}` (the optional comma is greedy; if it is taken, `\s+`
must still match, and if it is not taken a leading comma fails `\s+`
anyway). -/
def commaYearTail (r : List Char) : Bool :=
  let r' := match r with | ',' :: t => t | _ => r
  let ws := r'.takeWhile isJsSpace
  !ws.isEmpty && 4 ≤ ((r'.dropWhile isJsSpace).takeWhile (·.isDigit)).length

/-- Matcher for `(?:st|nd|rd|th)?,?\s+\d{4}` with greedy optionals and backtracking. -/
def ordCommaYearTail (r : List Char) : Bool :=
  (match r with
   | a :: b :: t =>
     (((ciChar a 's' && ciChar b 't') || (ciChar a 'n' && ciChar b 'd') ||
       (ciChar a 'r' && ciChar b 'd') || (ciChar a 't' && ciChar b 'h')) &&
      commaYearTail t)
   | _ => false) ||
  commaYearTail r

/-- Line 948: `/(january|…|december)\s+\d{1,2}(?:st|nd|rd|th)?,?\s+\d{4}/i`;
`matchedText = match[1]`: the month name as it appears in the input. -/
def rxMonthName (line : String) : Option String :=
  (scanPos
    (fun s =>
      firstSome monthNames fun mon =>
        if ciPrefix mon.data s then
          let rest := s.drop mon.length
          let ws := rest.takeWhile isJsSpace
          let r1 := rest.dropWhile isJsSpace
          let ds := r1.takeWhile (·.isDigit)
          if !ws.isEmpty && !ds.isEmpty && ds.length ≤ 2 &&
             ordCommaYearTail (r1.drop ds.length) then
            some (s.take mon.length)
          else none
        else none)
    line.data).map fun l => ⟨l⟩

/-- Line 942ff: the ordered `dateTimeRegexes` array. -/
def dateTimeRegexes : List (String → Option String) :=
  [rxDateWhen, rxTimeLabel, rxWeekday, rxSlashDate, rxTime, rxMonthName]

/-- Line 1002: `/(?:location|where|room|address):\s*([^,\n]+)/i`. -/
def rxLocLabel (line : String) : Option String :=
  labelMatcher ["location", "where", "room", "address"] line

def atKeywords : List String := ["room", "center", "building", "hall", "auditorium"]

/-- Is some keyword a case-insensitive prefix here? -/
def kwAt (ks : List String) (s : List Char) : Bool :=
  ks.any fun k => ciPrefix k.data s

/-- Does some keyword occur at a position `≥ 1`? -/
def kwInTail (ks : List String) : List Char → Bool
  | [] => false
  | _ :: rest => kwAt ks rest || kwInTail ks rest

/-- Line 1003: `/(?:at|@)\s+([^,\n]+(?:room|center|building|hall|auditorium)[^,\n]*)/i`.
After the greedy `\s+`, group 1 covers the whole non-comma run,
provided a keyword occurs at offset `≥ 1` in it (the `[^,\n]+` needs
one preceding character); if the only keyword occurrence is at offset
0 and `\s+` matched at least two characters, backtracking donates the
last whitespace character to the group. -/
def rxAtPhrase (line : String) : Option String :=
  (scanPos
    (fun s =>
      let go : List Char → Option (List Char) := fun after =>
        let ws := after.takeWhile isJsSpace
        let tail := after.dropWhile isJsSpace
        let run := tail.takeWhile fun c => !(c == ',')
        if ws.isEmpty then none
        else if kwInTail atKeywords run then some run
        else if kwAt atKeywords run && 2 ≤ ws.length then
          match ws.getLast? with
          | some c => some (c :: run)
          | none => none
        else none
      if ciPrefix ['a', 't'] s then go (s.drop 2)
      else match s with
           | '@' :: r => go r
           | _ => none)
    line.data).map fun l => ⟨l⟩

/-- Line 1004: `/(room\s+\d+[^,\n]*)/i`; group 1 runs from `room` to the
next comma or the end of the line. -/
def rxRoomNum (line : String) : Option String :=
  (scanPos
    (fun s =>
      if ciPrefix ['r', 'o', 'o', 'm'] s then
        let rest := s.drop 4
        let ws := rest.takeWhile isJsSpace
        let r1 := rest.dropWhile isJsSpace
        if !ws.isEmpty && !(r1.takeWhile (·.isDigit)).isEmpty then
          some (s.takeWhile fun c => !(c == ','))
        else none
      else none)
    line.data).map fun l => ⟨l⟩

def segKeywords : List String := ["center", "building", "hall", "auditorium", "library"]

/-- Does some keyword occur anywhere (offset `≥ 0`)? -/
def kwAnywhere (ks : List String) (s : List Char) : Bool :=
  kwAt ks s || kwInTail ks s

/-- Split on `','` (the segments a `[^,\n]*…[^,\n]*` pattern can span). -/
def splitComma (s : List Char) : List (List Char) :=
  match s with
  | [] => [[]]
  | ',' :: rest => [] :: splitComma rest
  | c :: rest =>
    match splitComma rest with
    | seg :: segs => (c :: seg) :: segs
    | [] => [[c]]

/-- Line 1005: `/([^,\n]*(?:center|building|hall|auditorium|library)[^,\n]*)/i`.
Group 1 is the first comma-delimited segment of the line containing a
keyword (leftmost match: positions inside an earlier segment cannot
reach past its comma). -/
def rxKeywordSegment (line : String) : Option String :=
  (firstSome (splitComma line.data) fun seg =>
    if kwAnywhere segKeywords seg then some seg else none).map fun l => ⟨l⟩

/-- Line 1001ff: the ordered `locationRegexes` array. -/
def locationRegexes : List (String → Option String) :=
  [rxLocLabel, rxAtPhrase, rxRoomNum, rxKeywordSegment]

/-! ## The extractor `parseEventFromText` (lines 918-1054) -/

/-- The `CandidateEvent` / `EventData` interface.  Optional strings are
`""` when absent (the `x || undefined` mapping at lines 1046-1053
forgets nothing the downstream truthiness tests can see). -/
structure EventData where
  title : String
  start_dt : String
  end_dt : String
  location : String
  notes : String
  confidence : ℚ
deriving DecidableEq, Repr

/-- The mutable state of the date/time loop (lines 921-952):
`start_dt`, `dateFound` (written, never read), `timeFound`,
`confidence`. -/
structure DTState where
  start_dt : String
  dateFound : Bool
  timeFound : Bool
  conf : ℚ
deriving DecidableEq, Repr

/-- Lines 929-934: candidate title lines among the first three. -/
def titleCandidates (lines : List String) : List String :=
  (lines.take 3).filter fun line =>
    decide (5 < line.length) && !(jsIncludes (toLowerStr line) "date") &&
    !(jsIncludes (toLowerStr line) "time") && !(jsIncludes (toLowerStr line) "location")

/-- Lines 955-977, one regex of the cascade on one line.  On a match,
`new Date(matchedText)` either parses (`isNaN` guard passes: `start_dt`
is overwritten with the ISO rendering, `confidence += 0.3`) or yields an
Invalid Date, in which case nothing happens: the `catch` arm holding the
raw-text fallback (lines 968-975) is unreachable, because neither the
`Date` constructor nor `getTime()` throws. -/
def dtRegexStep (jsDate : String → Option Int) (line : String)
    (st : DTState) (rx : String → Option String) : DTState :=
  match rx line with
  | none => st
  | some matchedText =>
    match jsDate matchedText with
    | some t =>
      { st with start_dt := toISOString t, dateFound := true, conf := st.conf + 0.3 }
    | none => st

/-- Lines 979-997: the standalone time-of-day scan, with the
date+time merge attempt guarded by `start_dt && !start_dt.includes('T')`. -/
def dtTimePart (jsDate : String → Option Int) (line : String) (st : DTState) :
    DTState :=
  match rxTime line with
  | none => st
  | some timeStr =>
    if st.timeFound then st
    else
      let st2 := { st with timeFound := true, conf := st.conf + 0.2 }
      if st2.start_dt != "" && !(jsIncludes st2.start_dt "T") then
        match jsDate (st2.start_dt ++ " " ++ timeStr) with
        | some t => { st2 with start_dt := toISOString t }
        | none => st2
      else st2

/-- One iteration of `for (const line of lines)` (lines 954-998). -/
def dtLineStep (jsDate : String → Option Int) (st : DTState) (line : String) :
    DTState :=
  dtTimePart jsDate line (dateTimeRegexes.foldl (dtRegexStep jsDate line) st)

/-- The whole date/time loop, from confidence `c` after the title step. -/
def dtPhase (jsDate : String → Option Int) (lines : List String) (c : ℚ) :
    DTState :=
  lines.foldl (dtLineStep jsDate) ⟨"", false, false, c⟩

/-- Lines 1008-1017: the location cascade; the first match over
(line, pattern) in line-major order wins, `match[1].trim()`, `+= 0.2`. -/
def locLineStep (acc : String × ℚ) (line : String) : String × ℚ :=
  if acc.1 != "" then acc
  else
    match firstSome locationRegexes (fun rx => rx line) with
    | some g => (jsTrim g, acc.2 + 0.2)
    | none => acc

/-- The extractor `parseEventFromText` (lines 918-1054), parameterized by the
platform's `new Date(string)` parser. -/
def parseEventFromText (jsDate : String → Option Int) (text : String) :
    EventData :=
  let lines := splitLines text
  let tc := titleCandidates lines
  let title := tc.headD ""
  let c1 : ℚ := if tc.isEmpty then 0.5 else 0.5 + 0.2
  let st := dtPhase jsDate lines c1
  let loc := lines.foldl locLineStep ("", st.conf)
  let noteLines := lines.filter fun l =>
    jsIncludes l "@" || jsIncludes l "http" || jsIncludes l "contact"
  let notes := joinNL noteLines
  let c3 := if noteLines.isEmpty then loc.2 else loc.2 + 0.1
  let end_dt :=
    if st.start_dt != "" && jsIncludes st.start_dt "T" then
      match jsDate st.start_dt with
      | some t => toISOString (t + 7200000)
      | none => ""
    else ""
  { title := title, start_dt := st.start_dt, end_dt := end_dt,
    location := loc.1, notes := notes, confidence := min c3 1 }

/-! ### A comparison extractor without the merge branch

`parseEventFromTextNoMerge` is verbatim `parseEventFromText` with the
date+time merge attempt (lines 985-996) deleted from the time scan; the
claim that the merge can never fire is the statement that the two
functions agree on every input. -/

/-- The time scan without the merge attempt. -/
def dtTimePartNoMerge (line : String) (st : DTState) : DTState :=
  match rxTime line with
  | none => st
  | some _ =>
    if st.timeFound then st
    else { st with timeFound := true, conf := st.conf + 0.2 }

def dtLineStepNoMerge (jsDate : String → Option Int) (st : DTState)
    (line : String) : DTState :=
  dtTimePartNoMerge line (dateTimeRegexes.foldl (dtRegexStep jsDate line) st)

def dtPhaseNoMerge (jsDate : String → Option Int) (lines : List String)
    (c : ℚ) : DTState :=
  lines.foldl (dtLineStepNoMerge jsDate) ⟨"", false, false, c⟩

/-- Variant of `parseEventFromText` with the merge branch removed. -/
def parseEventFromTextNoMerge (jsDate : String → Option Int) (text : String) :
    EventData :=
  let lines := splitLines text
  let tc := titleCandidates lines
  let title := tc.headD ""
  let c1 : ℚ := if tc.isEmpty then 0.5 else 0.5 + 0.2
  let st := dtPhaseNoMerge jsDate lines c1
  let loc := lines.foldl locLineStep ("", st.conf)
  let noteLines := lines.filter fun l =>
    jsIncludes l "@" || jsIncludes l "http" || jsIncludes l "contact"
  let notes := joinNL noteLines
  let c3 := if noteLines.isEmpty then loc.2 else loc.2 + 0.1
  let end_dt :=
    if st.start_dt != "" && jsIncludes st.start_dt "T" then
      match jsDate st.start_dt with
      | some t => toISOString (t + 7200000)
      | none => ""
    else ""
  { title := title, start_dt := st.start_dt, end_dt := end_dt,
    location := loc.1, notes := notes, confidence := min c3 1 }

/-! ### Observation helpers for the date/time cascade -/

/-- The successful `new Date` parses one line feeds the cascade, in
cascade order. -/
def lineDateParses (jsDate : String → Option Int) (line : String) : List Int :=
  dateTimeRegexes.filterMap fun rx => (rx line).bind jsDate

/-- All successful parses of the whole input, in evaluation order. -/
def allDateParses (jsDate : String → Option Int) (text : String) : List Int :=
  (splitLines text).flatMap (lineDateParses jsDate)

/-- What a sequence of successful parses leaves in `start_dt`: each one
overwrites the field, so the last wins and an empty sequence keeps the
previous value. -/
def applyParses (prev : String) (ps : List Int) : String :=
  ps.foldl (fun _ t => toISOString t) prev

/-- Does any line carry a standalone time-of-day token? -/
def hasTimeToken (text : String) : Bool :=
  (splitLines text).any fun l => (rxTime l).isSome

/-! ## Confidence policy and orchestrator decision -/

/-- The `needs_confirmation` expression of `createDraftEvent`
(line 1068): `eventData.confidence < 0.8 || !eventData.start_dt ||
!eventData.title`. -/
def needsConfirmation (e : EventData) : Bool :=
  decide (e.confidence < 0.8) || e.start_dt == "" || e.title == ""

/-- The three observable branches of `sendQuickReplies` (lines 1082-1098). -/
inductive QuickReplyAction where
  | askDateTime
  | confirmEvent
  | autoCreateCommit
deriving DecidableEq, Repr

/-- Lines 1087-1097: ask for a date when `start_dt` is missing, ask for
confirmation when confidence is low, otherwise invoke
`create-calendar-event` (the auto-commit). -/
def sendQuickRepliesAction (e : EventData) : QuickReplyAction :=
  if e.start_dt == "" then .askDateTime
  else if e.confidence < 0.8 then .confirmEvent
  else .autoCreateCommit

/-- The per-message decision pair the ingestion handler (lines
1100-1142) produces: the `needs_confirmation` flag persisted with the
draft, and the quick-reply branch taken afterwards on the same
`eventData`. -/
structure IngestDecision where
  draftNeedsConfirmation : Bool
  action : QuickReplyAction
deriving DecidableEq, Repr

def ingestDecision (jsDate : String → Option Int) (ocrText : String) :
    IngestDecision :=
  let e := parseEventFromText jsDate ocrText
  ⟨needsConfirmation e, sendQuickRepliesAction e⟩

/-! ## The calendar commit engine (`create-calendar-event`, lines 663-854) -/

/-- A persisted `draft_events` row, with the columns the handler reads. -/
structure DraftEvent where
  id : String
  user_id : String
  title : String
  start_dt : String
  end_dt : String
  location : String
  notes : String
  confidence : ℚ
  needs_confirmation : Bool
  created_at : Nat
deriving DecidableEq, Repr

/-- The `GoogleCalendarEvent` payload (lines 663-678); `location = ""`
stands for the field being omitted (line 756 adds it only if truthy). -/
structure GoogleCalendarEvent where
  summary : String
  description : String
  startDateTime : String
  startTimeZone : String
  endDateTime : String
  endTimeZone : String
  location : String
  remindersUseDefault : Bool
deriving DecidableEq, Repr

/-- Payload builder `buildGoogleEvent` (lines 739-761).  When `end_dt` is empty the end
is `start + 2h` via `new Date(new Date(start).getTime() + 2*60*60*1000)
.toISOString()`; if `start` is not parseable that `toISOString()` call
throws a `RangeError` (there is no `try` in `buildGoogleEvent`), which
the embedding renders as `none`. -/
def buildGoogleEvent (jsDate : String → Option Int) (d : DraftEvent) :
    Option GoogleCalendarEvent :=
  let endDt : Option String :=
    if d.end_dt != "" then some d.end_dt
    else
      match jsDate d.start_dt with
      | some t => some (toISOString (t + 7200000))
      | none => none
  endDt.map fun e =>
    { summary := if d.title != "" then d.title else "Event from Instagram"
      description := "Created from Instagram DM\n\n" ++ d.notes
      startDateTime := d.start_dt
      startTimeZone := "UTC"
      endDateTime := e
      endTimeZone := "UTC"
      location := d.location
      remindersUseDefault := true }

/-- The request body `{ userId, draftEventId }` (line 769). -/
structure CommitRequest where
  userId : String
  draftEventId : Option String
deriving DecidableEq, Repr

/-- The visible draft-store state the handler queries. -/
structure Store where
  drafts : List DraftEvent
deriving DecidableEq, Repr

/-- Model of `ORDER BY created_at DESC LIMIT 1` on the already-filtered rows;
SQL leaves the order of equal keys unspecified, the model keeps the
first-listed row among ties. -/
def pickLatest : List DraftEvent → Option DraftEvent
  | [] => none
  | d :: rest =>
    match pickLatest rest with
    | none => some d
    | some d' => some (if d.created_at < d'.created_at then d' else d)

/-- Lines 771-786: the draft query.  With an explicit id the filter is
`user_id = userId AND id = draftEventId`; otherwise
`user_id = userId AND needs_confirmation = false`, newest first, limit
one.  `maybeSingle()` yields an error when more than one row remains,
`null` when none does. -/
def selectDraft (s : Store) (req : CommitRequest) :
    Except String (Option DraftEvent) :=
  match req.draftEventId with
  | some did =>
    match s.drafts.filter fun d => d.user_id == req.userId && d.id == did with
    | [] => .ok none
    | [d] => .ok (some d)
    | _ => .error "JSON object requested, multiple (or no) rows returned"
  | none =>
    .ok (pickLatest
      (s.drafts.filter fun d => d.user_id == req.userId && !d.needs_confirmation))

/-- The error taxonomy of the handler, by thrown message. -/
inductive CommitError where
  /-- Thrown `Database error: …` (line 789). -/
  | dbError (msg : String)
  /-- Thrown `No draft event found` (line 793) — a `ValidationError`. -/
  | noDraftFound
  /-- Thrown `Event start time is required` (line 797) — a `ValidationError`. -/
  | missingStart
  /-- Failures of `getValidAccessToken` (lines 687-716). -/
  | credentialError (msg : String)
  /-- the uncaught `RangeError` out of `buildGoogleEvent`. -/
  | rangeError
  /-- Thrown `Calendar API error: status body` (line 733). -/
  | providerError (status : Nat) (body : String)
deriving DecidableEq, Repr

/-- Is the failure one of the two precondition (`ValidationError`) ones? -/
def CommitError.isValidation : CommitError → Bool
  | .noDraftFound => true
  | .missingStart => true
  | _ => false

/-- What the Google Calendar API returns on success. -/
structure ProviderResponse where
  id : String
  htmlLink : String
deriving DecidableEq, Repr

/-- An `events` row inserted at lines 812-823. -/
structure EventRecord where
  user_id : String
  draft_event_id : String
  google_event_id : String
  calendar_id : String
  request_payload : GoogleCalendarEvent
  response_payload : ProviderResponse
deriving DecidableEq, Repr

/-- The success body (lines 838-844). -/
structure CommitSuccess where
  eventId : String
  eventLink : String
  title : String
  startTime : String
deriving DecidableEq, Repr

/-- Outcomes of the external calls one commit invocation can make. -/
structure ExternalWorld where
  /-- Outcome of `getValidAccessToken` (probe + possible refresh folded into one
  outcome: a token, or a thrown error message). -/
  credential : Except String String
  /-- Outcome of `createGoogleCalendarEvent`: non-2xx `(status, body)` or the
  parsed response. -/
  provider : Except (Nat × String) ProviderResponse
  /-- does the `events` insert succeed? -/
  insertOk : Bool
  /-- does the `draft_events` update succeed?  (Its result object is
  discarded by the source, so this can only affect the store, never the
  response.) -/
  updateOk : Bool
deriving Repr

/-- Everything observable about one run of the handler body
(lines 768-846): the HTTP-level result, how many times the credential
provider and the calendar provider were reached, which bookkeeping rows
were written, and whether the draft flag was really flipped. -/
structure CommitEffects where
  result : Except CommitError CommitSuccess
  credentialLookups : Nat
  providerCalls : Nat
  insertedEvents : List EventRecord
  draftUpdated : Option String
deriving Repr

/-- The `create-calendar-event` handler body (lines 768-846),
parameterized by the store contents and the outcomes of the external
calls.  Control flow is faithful: every `throw` before line 801 happens
before any credential lookup; the `events` insert failure at line 825
is logged and deliberately not rethrown; the `draft_events` update at
lines 831-834 has its result object discarded. -/
def commitHandler (s : Store) (req : CommitRequest) (w : ExternalWorld)
    (jsDate : String → Option Int) : CommitEffects :=
  match selectDraft s req with
  | .error m =>
    ⟨.error (.dbError m), 0, 0, [], none⟩
  | .ok none =>
    ⟨.error .noDraftFound, 0, 0, [], none⟩
  | .ok (some d) =>
    if d.start_dt == "" then
      ⟨.error .missingStart, 0, 0, [], none⟩
    else
      match w.credential with
      | .error m => ⟨.error (.credentialError m), 1, 0, [], none⟩
      | .ok _token =>
        match buildGoogleEvent jsDate d with
        | none => ⟨.error .rangeError, 1, 0, [], none⟩
        | some g =>
          match w.provider with
          | .error (st, body) =>
            ⟨.error (.providerError st body), 1, 1, [], none⟩
          | .ok resp =>
            { result := .ok ⟨resp.id, resp.htmlLink, d.title, d.start_dt⟩
              credentialLookups := 1
              providerCalls := 1
              insertedEvents :=
                if w.insertOk then
                  [⟨req.userId, d.id, resp.id, "primary", g, resp⟩]
                else []
              draftUpdated := if w.updateOk then some d.id else none }

/-! ## Structural lemmas about the extractor -/

lemma containsSubL_middle (c : Char) :
    ∀ (a b : List Char), containsSubL [c] (a ++ c :: b) = true := by
  intro a b
  induction a with
  | nil => simp [containsSubL, List.isPrefixOf]
  | cons x xs ih => simp [containsSubL, ih]

/-- Every `toISOString` rendering contains the letter `T`. -/
lemma toISOString_includes_T (t : Int) : jsIncludes (toISOString t) "T" = true := by
  unfold toISOString jsIncludes
  have h : ∀ (a b : String), (a ++ "T" ++ b).data = a.data ++ 'T' :: b.data := by
    intro a b
    simp [String.data_append]
  rw [h]
  exact containsSubL_middle 'T' _ _

/-- The invariant of the date/time loop: `start_dt` is empty or an ISO
rendering (hence contains `T`), so the merge guard
`start_dt && !start_dt.includes('T')` can never pass. -/
def startOk (st : DTState) : Prop :=
  st.start_dt = "" ∨ jsIncludes st.start_dt "T" = true

lemma applyParses_nil (prev : String) : applyParses prev [] = prev := rfl

lemma applyParses_cons (prev : String) (t : Int) (ps : List Int) :
    applyParses prev (t :: ps) = applyParses (toISOString t) ps := rfl

lemma applyParses_append (prev : String) (a b : List Int) :
    applyParses prev (a ++ b) = applyParses (applyParses prev a) b := by
  simp [applyParses, List.foldl_append]

lemma applyParses_concat (prev : String) (ps : List Int) (t : Int) :
    applyParses prev (ps ++ [t]) = toISOString t := by
  simp [applyParses_append, applyParses]

/-- What one pass of the regex cascade over one line does to `start_dt`:
each successful parse overwrites it. -/
lemma regexFold_start (jsDate : String → Option Int) (line : String) :
    ∀ (ms : List (String → Option String)) (st : DTState),
      (ms.foldl (dtRegexStep jsDate line) st).start_dt =
        applyParses st.start_dt (ms.filterMap fun rx => (rx line).bind jsDate) := by
  intro ms
  induction ms with
  | nil => intro st; rfl
  | cons rx ms ih =>
    intro st
    rcases hrx : rx line with _ | mt
    · simpa [List.foldl, dtRegexStep, hrx, List.filterMap_cons] using ih st
    · rcases hjd : jsDate mt with _ | t
      · simpa [List.foldl, dtRegexStep, hrx, hjd, List.filterMap_cons] using ih st
      · simpa [List.foldl, dtRegexStep, hrx, hjd, List.filterMap_cons,
               applyParses_cons] using
          ih { st with start_dt := toISOString t, dateFound := true,
                       conf := st.conf + 0.3 }

/-- One pass of the regex cascade adds `0.3` per successful parse. -/
lemma regexFold_conf (jsDate : String → Option Int) (line : String) :
    ∀ (ms : List (String → Option String)) (st : DTState),
      (ms.foldl (dtRegexStep jsDate line) st).conf =
        st.conf + 0.3 * ((ms.filterMap fun rx => (rx line).bind jsDate).length : ℚ) := by
  intro ms
  induction ms with
  | nil => intro st; simp
  | cons rx ms ih =>
    intro st
    rcases hrx : rx line with _ | mt
    · simpa [List.foldl, dtRegexStep, hrx, List.filterMap_cons] using ih st
    · rcases hjd : jsDate mt with _ | t
      · simpa [List.foldl, dtRegexStep, hrx, hjd, List.filterMap_cons] using ih st
      · have := ih { st with start_dt := toISOString t, dateFound := true,
                             conf := st.conf + 0.3 }
        simp only [List.foldl, dtRegexStep, hrx, hjd, List.filterMap_cons,
                   Option.some_bind] at this ⊢
        rw [this]
        simp only [List.length_cons]
        push_cast
        ring

/-- The regex cascade never touches `timeFound`. -/
lemma regexFold_timeFound (jsDate : String → Option Int) (line : String) :
    ∀ (ms : List (String → Option String)) (st : DTState),
      (ms.foldl (dtRegexStep jsDate line) st).timeFound = st.timeFound := by
  intro ms
  induction ms with
  | nil => intro st; rfl
  | cons rx ms ih =>
    intro st
    rcases hrx : rx line with _ | mt
    · simpa [List.foldl, dtRegexStep, hrx] using ih st
    · rcases hjd : jsDate mt with _ | t
      · simpa [List.foldl, dtRegexStep, hrx, hjd] using ih st
      · simpa [List.foldl, dtRegexStep, hrx, hjd] using
          ih { st with start_dt := toISOString t, dateFound := true,
                       conf := st.conf + 0.3 }

/-- The regex cascade preserves the invariant. -/
lemma regexFold_startOk (jsDate : String → Option Int) (line : String)
    (ms : List (String → Option String)) (st : DTState) (h : startOk st) :
    startOk (ms.foldl (dtRegexStep jsDate line) st) := by
  rw [startOk, regexFold_start]
  rcases (ms.filterMap fun rx => (rx line).bind jsDate).eq_nil_or_concat with
    hnil | ⟨ps, t, hps⟩
  · rw [hnil, applyParses_nil]; exact h
  · rw [hps, List.concat_eq_append, applyParses_concat]
    exact Or.inr (toISOString_includes_T t)

/-- Under the invariant the merge guard is dead: the faithful time scan
and the merge-free one agree. -/
lemma dtTimePart_eq_noMerge (jsDate : String → Option Int) (line : String)
    (st : DTState) (h : startOk st) :
    dtTimePart jsDate line st = dtTimePartNoMerge line st := by
  unfold dtTimePart dtTimePartNoMerge
  rcases hrx : rxTime line with _ | ts
  · rfl
  · by_cases htf : st.timeFound
    · simp [htf]
    · simp only [htf, if_false, Bool.false_eq_true]
      rcases h with h0 | hT
      · simp [h0]
      · simp [hT]

/-- The merge-free time scan never touches `start_dt`. -/
lemma dtTimePartNoMerge_start (line : String) (st : DTState) :
    (dtTimePartNoMerge line st).start_dt = st.start_dt := by
  unfold dtTimePartNoMerge
  rcases rxTime line with _ | ts
  · rfl
  · by_cases htf : st.timeFound <;> simp [htf]

lemma dtTimePartNoMerge_conf (line : String) (st : DTState) :
    (dtTimePartNoMerge line st).conf =
      st.conf + (if (rxTime line).isSome && !st.timeFound then 0.2 else 0) := by
  unfold dtTimePartNoMerge
  rcases rxTime line with _ | ts
  · simp
  · by_cases htf : st.timeFound <;> simp [htf]

lemma dtTimePartNoMerge_timeFound (line : String) (st : DTState) :
    (dtTimePartNoMerge line st).timeFound =
      (st.timeFound || (rxTime line).isSome) := by
  unfold dtTimePartNoMerge
  rcases rxTime line with _ | ts
  · simp
  · by_cases htf : st.timeFound <;> simp [htf]

/-- The invariant is preserved by a whole line step, and the faithful
line step equals the merge-free one on invariant states. -/
lemma dtLineStep_eq_noMerge (jsDate : String → Option Int) (st : DTState)
    (line : String) (h : startOk st) :
    dtLineStep jsDate st line = dtLineStepNoMerge jsDate st line := by
  unfold dtLineStep dtLineStepNoMerge
  exact dtTimePart_eq_noMerge jsDate line _ (regexFold_startOk jsDate line _ st h)

lemma dtLineStepNoMerge_startOk (jsDate : String → Option Int) (st : DTState)
    (line : String) (h : startOk st) :
    startOk (dtLineStepNoMerge jsDate st line) := by
  unfold dtLineStepNoMerge
  rw [startOk, dtTimePartNoMerge_start]
  exact regexFold_startOk jsDate line _ st h

/-- The whole date/time loop equals its merge-free variant from any
invariant state — in particular from the initial one. -/
lemma dtFold_eq_noMerge (jsDate : String → Option Int) :
    ∀ (lines : List String) (st : DTState), startOk st →
      lines.foldl (dtLineStep jsDate) st =
        lines.foldl (dtLineStepNoMerge jsDate) st := by
  intro lines
  induction lines with
  | nil => intro st _; rfl
  | cons line rest ih =>
    intro st h
    simp only [List.foldl]
    rw [dtLineStep_eq_noMerge jsDate st line h]
    exact ih _ (dtLineStepNoMerge_startOk jsDate st line h)

lemma dtPhase_eq_noMerge (jsDate : String → Option Int) (lines : List String)
    (c : ℚ) : dtPhase jsDate lines c = dtPhaseNoMerge jsDate lines c :=
  dtFold_eq_noMerge jsDate lines _ (Or.inl rfl)

/-- Value of `start_dt` after the (merge-free) loop: every successful parse
overwrote it, in evaluation order. -/
lemma dtFoldNoMerge_start (jsDate : String → Option Int) :
    ∀ (lines : List String) (st : DTState),
      (lines.foldl (dtLineStepNoMerge jsDate) st).start_dt =
        applyParses st.start_dt (lines.flatMap (lineDateParses jsDate)) := by
  intro lines
  induction lines with
  | nil => intro st; rfl
  | cons line rest ih =>
    intro st
    simp only [List.foldl, List.flatMap_cons]
    rw [ih, applyParses_append]
    congr 1
    unfold dtLineStepNoMerge
    rw [dtTimePartNoMerge_start]
    exact regexFold_start jsDate line dateTimeRegexes st

set_option linter.unusedTactic false in
/-- Confidence and `timeFound` after the (merge-free) loop. -/
lemma dtFoldNoMerge_conf (jsDate : String → Option Int) :
    ∀ (lines : List String) (st : DTState),
      (lines.foldl (dtLineStepNoMerge jsDate) st).conf =
        st.conf + 0.3 * ((lines.flatMap (lineDateParses jsDate)).length : ℚ) +
          (if (lines.any fun l => (rxTime l).isSome) && !st.timeFound
           then 0.2 else 0) ∧
      (lines.foldl (dtLineStepNoMerge jsDate) st).timeFound =
        (st.timeFound || lines.any fun l => (rxTime l).isSome) := by
  intro lines
  induction lines with
  | nil => intro st; simp
  | cons line rest ih =>
    intro st
    obtain ⟨ihc, iht⟩ := ih (dtLineStepNoMerge jsDate st line)
    have hlc : (dtLineStepNoMerge jsDate st line).conf =
        st.conf + 0.3 * ((lineDateParses jsDate line).length : ℚ) +
          (if (rxTime line).isSome && !st.timeFound then 0.2 else 0) := by
      unfold dtLineStepNoMerge
      rw [dtTimePartNoMerge_conf, regexFold_conf, regexFold_timeFound]
      rfl
    have hlt : (dtLineStepNoMerge jsDate st line).timeFound =
        (st.timeFound || (rxTime line).isSome) := by
      unfold dtLineStepNoMerge
      rw [dtTimePartNoMerge_timeFound, regexFold_timeFound]
    constructor
    · simp only [List.foldl, List.flatMap_cons]
      rw [ihc, hlc, hlt]
      rcases hl : (rxTime line).isSome with _ | _ <;>
        rcases ht : st.timeFound with _ | _ <;>
        rcases hr : (rest.any fun l => (rxTime l).isSome) with _ | _ <;>
        · simp [hl, ht, hr, List.length_append]
          push_cast
          ring
    · simp only [List.foldl, List.any_cons]
      rw [iht, hlt]
      rcases hl : (rxTime line).isSome <;> simp [hl]

/-- One location step adds a nonnegative amount to the confidence. -/
lemma locLineStep_conf (a : String × ℚ) (line : String) :
    ∃ e : ℚ, 0 ≤ e ∧ (locLineStep a line).2 = a.2 + e := by
  unfold locLineStep
  by_cases ha : (a.1 != "") = true
  · exact ⟨0, le_refl 0, by simp [ha]⟩
  · simp only [ha]
    rcases firstSome locationRegexes (fun rx => rx line) with _ | g
    · exact ⟨0, le_refl 0, by simp⟩
    · exact ⟨0.2, by norm_num, by simp⟩

/-- The location cascade only ever raises the confidence. -/
lemma locFold_conf :
    ∀ (lines : List String) (a : String × ℚ),
      ∃ d : ℚ, 0 ≤ d ∧ (lines.foldl locLineStep a).2 = a.2 + d := by
  intro lines
  induction lines with
  | nil => exact fun a => ⟨0, le_refl 0, by simp⟩
  | cons line rest ih =>
    intro a
    obtain ⟨e, he, hstep⟩ := locLineStep_conf a line
    obtain ⟨d, hd, hfold⟩ := ih (locLineStep a line)
    exact ⟨e + d, by linarith, by simp only [List.foldl]; rw [hfold, hstep]; ring⟩

/-- The final confidence of the extractor: base `0.5`, `+0.3` per
successful date parse, `+0.2` once for a time token, plus nonnegative
title/location/notes bonuses, clamped at `1`. -/
lemma parse_confidence_eq (jsDate : String → Option Int) (text : String) :
    ∃ b : ℚ, 0 ≤ b ∧
      (parseEventFromText jsDate text).confidence =
        min (0.5 + 0.3 * ((allDateParses jsDate text).length : ℚ) +
             (if hasTimeToken text = true then 0.2 else 0) + b) 1 := by
  unfold parseEventFromText
  simp only []
  set lines := splitLines text with hlines
  set c1 : ℚ := if (titleCandidates lines).isEmpty then (0.5 : ℚ) else 0.5 + 0.2
    with hc1
  have hdt : (dtPhase jsDate lines c1).conf =
      c1 + 0.3 * ((lines.flatMap (lineDateParses jsDate)).length : ℚ) +
        (if lines.any (fun l => (rxTime l).isSome) then 0.2 else 0) := by
    rw [dtPhase_eq_noMerge]
    have := (dtFoldNoMerge_conf jsDate lines ⟨"", false, false, c1⟩).1
    simpa [dtPhaseNoMerge] using this
  obtain ⟨d, hd, hfold⟩ := locFold_conf lines ("", (dtPhase jsDate lines c1).conf)
  refine ⟨(c1 - 0.5) + d +
    (if (lines.filter fun l =>
          jsIncludes l "@" || jsIncludes l "http" || jsIncludes l "contact").isEmpty
     then 0 else 0.1), ?_, ?_⟩
  · have hc : 0 ≤ c1 - 0.5 := by
      rw [hc1]; split <;> norm_num
    split <;> linarith
  · have htt : hasTimeToken text = lines.any (fun l => (rxTime l).isSome) := rfl
    have hap : allDateParses jsDate text = lines.flatMap (lineDateParses jsDate) := rfl
    rw [htt, hap]
    congr 1
    split <;> · rw [hfold, hdt]; split <;> ring

/-! ## C7: confidence bounds and the empty input -/

/-- Claim C7:  For every `new Date` behaviour and every input text the
extractor's confidence lies in `[0, 1]`; on the empty input the result
is entirely empty with confidence exactly `0.5`. -/
theorem extractor_confidence_bounds (jsDate : String → Option Int) (text : String) :
    0 ≤ (parseEventFromText jsDate text).confidence ∧
    (parseEventFromText jsDate text).confidence ≤ 1 ∧
    parseEventFromText jsDate "" =
      ⟨"", "", "", "", "", 0.5⟩ := by
  obtain ⟨b, hb, hconf⟩ := parse_confidence_eq jsDate text
  refine ⟨?_, ?_, ?_⟩
  · rw [hconf]
    have hn : (0 : ℚ) ≤ 0.3 * ((allDateParses jsDate text).length : ℚ) := by
      positivity
    have ht : (0 : ℚ) ≤ (if hasTimeToken text = true then (0.2 : ℚ) else 0) := by
      split <;> norm_num
    have : (0 : ℚ) ≤ 0.5 + 0.3 * ((allDateParses jsDate text).length : ℚ) +
        (if hasTimeToken text = true then 0.2 else 0) + b := by linarith
    exact le_min this (by norm_num)
  · rw [hconf]; exact min_le_right _ _
  · with_unfolding_all rfl

/-- The `start_dt` of the extractor's output is exactly the `start_dt` the
date/time loop left behind (the later phases never write it). -/
lemma parse_start_eq (jsDate : String → Option Int) (text : String) :
    (parseEventFromText jsDate text).start_dt =
      (dtPhase jsDate (splitLines text)
        (if (titleCandidates (splitLines text)).isEmpty then (0.5 : ℚ)
         else 0.5 + 0.2)).start_dt := rfl

/-- The extractor coincides with its merge-free variant: the date+time
merge branch can never execute. -/
lemma parse_eq_noMerge (jsDate : String → Option Int) (text : String) :
    parseEventFromText jsDate text = parseEventFromTextNoMerge jsDate text := by
  simp only [parseEventFromText, parseEventFromTextNoMerge, dtPhase_eq_noMerge]

/-! ## C2: the confidence policy -/

/-- Claim C2:  The persisted `needs_confirmation` flag is true exactly
when confidence `< 0.8`, or `start_dt` is absent, or `title` is absent;
it is false exactly when confidence `≥ 0.8` and both fields are
non-empty — so a high confidence alone never clears the flag while a
field is missing. -/
theorem needsConfirmation_iff (e : EventData) :
    (needsConfirmation e = true ↔
      (e.confidence < 0.8 ∨ e.start_dt = "" ∨ e.title = "")) ∧
    (needsConfirmation e = false ↔
      (0.8 ≤ e.confidence ∧ e.start_dt ≠ "" ∧ e.title ≠ "")) := by
  constructor
  · simp only [needsConfirmation, Bool.or_eq_true, decide_eq_true_eq, beq_iff_eq]
    tauto
  · simp only [needsConfirmation, Bool.or_eq_false_iff, decide_eq_false_iff_not,
               beq_eq_false_iff_ne, ne_eq, not_lt]
    tauto

/-! ## C3: the auto-commit trigger -/

/-- Claim C3, counterexample:  On the OCR text `"date: 1/2/2024"` the
extractor reaches confidence `1` with a start but no title; the
persisted draft therefore has `needs_confirmation = true`, yet
`sendQuickReplies` still auto-invokes the commit engine — the trigger
is not `needsConfirmation = false`. -/
theorem autoCommit_despite_needsConfirmation :
    ingestDecision jsDateModel "date: 1/2/2024" =
      ⟨true, .autoCreateCommit⟩ := by
  with_unfolding_all rfl

/-- Claim C3, amended:  The orchestrator invokes the commit engine iff
the extracted candidate has a non-empty `start_dt` and confidence
`≥ 0.8`; the title — and hence the draft's `needsConfirmation` flag —
is not consulted.  In every other case a quick reply (date request or
confirmation request) is surfaced instead of a commit. -/
theorem autoCommit_iff_start_and_confidence (jsDate : String → Option Int)
    (text : String) :
    (ingestDecision jsDate text).action = .autoCreateCommit ↔
      ((parseEventFromText jsDate text).start_dt ≠ "" ∧
       0.8 ≤ (parseEventFromText jsDate text).confidence) := by
  unfold ingestDecision sendQuickRepliesAction
  set e := parseEventFromText jsDate text with he
  by_cases h1 : e.start_dt = ""
  · simp [h1]
  · by_cases h2 : e.confidence < 0.8
    · simp [h1, h2, not_le.mpr h2]
    · simp [h1, h2, not_lt.mp h2]

/-! ## C1: which date-pattern match is retained -/

/-- Claim C1, counterexample:  In `"date: 1/2/2024\ndate: 3/4/2024"` the
first successful absolute parse is `1/2/2024`
(= `2024-01-02T00:00:00.000Z`), but the extractor retains the **last**
successful parse, and the `+0.3` parse bonus is paid four times (on
each line both the label pattern and the slash pattern match and
parse), so the confidence is `min (0.5+4*0.3) 1 = 1`, not the
`0.5 + 0.3 = 0.8` a single bonus would give. -/
theorem start_not_first_match :
    allDateParses jsDateModel "date: 1/2/2024\ndate: 3/4/2024" =
      [1704153600000, 1704153600000, 1709510400000, 1709510400000] ∧
    toISOString 1704153600000 = "2024-01-02T00:00:00.000Z" ∧
    (parseEventFromText jsDateModel "date: 1/2/2024\ndate: 3/4/2024").start_dt =
      "2024-03-04T00:00:00.000Z" ∧
    ¬ (parseEventFromText jsDateModel
        "date: 1/2/2024\ndate: 3/4/2024").start_dt =
        "2024-01-02T00:00:00.000Z" ∧
    (parseEventFromText jsDateModel
        "date: 1/2/2024\ndate: 3/4/2024").confidence = 1 ∧
    ¬ ((1 : ℚ) = 0.8) := by
  have h3 : (parseEventFromText jsDateModel
      "date: 1/2/2024\ndate: 3/4/2024").start_dt =
      "2024-03-04T00:00:00.000Z" := by with_unfolding_all rfl
  refine ⟨?_, ?_, h3, ?_, ?_, ?_⟩
  · with_unfolding_all rfl
  · with_unfolding_all rfl
  · rw [h3]; decide
  · with_unfolding_all rfl
  · norm_num

/-- Claim C1, amended:  Every successful absolute parse of a date-pattern
match overwrites `start_dt` — the last one wins (`applyParses`), and
with no successful parse the field keeps its initial empty value, the
raw-match fallback being unreachable — and each successful parse adds
`0.3` to the confidence, so the parse bonus is contributed once per
successful parse rather than at most once per extraction (the time
token still adds `0.2` at most once). -/
theorem start_is_last_parse (jsDate : String → Option Int) (text : String)
    (c : ℚ) :
    (parseEventFromText jsDate text).start_dt =
      applyParses "" (allDateParses jsDate text) ∧
    (∀ (prev : String) (ps : List Int) (t : Int),
      applyParses prev (ps ++ [t]) = toISOString t) ∧
    (∀ prev : String, applyParses prev [] = prev) ∧
    (dtPhase jsDate (splitLines text) c).conf =
      c + 0.3 * ((allDateParses jsDate text).length : ℚ) +
        (if hasTimeToken text = true then 0.2 else 0) := by
  refine ⟨?_, fun prev ps t => applyParses_concat prev ps t,
          fun prev => rfl, ?_⟩
  · rw [parse_start_eq, dtPhase_eq_noMerge]
    exact dtFoldNoMerge_start jsDate (splitLines text) _
  · rw [dtPhase_eq_noMerge]
    have := (dtFoldNoMerge_conf jsDate (splitLines text) ⟨"", false, false, c⟩).1
    simpa [dtPhaseNoMerge, allDateParses, hasTimeToken] using this

/-! ## C4: the unreachable raw-text fallback -/

/-- Claim C4:  On OCR text whose only date-pattern match is not
parseable — `"date: pizza party"`, where the label pattern captures
`pizza party` — the extractor neither stores the raw substring in
`start_dt` nor adds `0.1`: the fallback sits in a `catch` arm that can
never run, because `new Date(string)` returns an Invalid Date instead
of throwing.  The whole result is empty at base confidence `0.5`. -/
theorem unparseable_match_leaves_start_empty :
    rxDateWhen "date: pizza party" = some "pizza party" ∧
    jsDateModel "pizza party" = none ∧
    parseEventFromText jsDateModel "date: pizza party" =
      ⟨"", "", "", "", "", 0.5⟩ := by
  refine ⟨?_, ?_, ?_⟩ <;> with_unfolding_all rfl

/-! ## C5: date and time are never merged -/

/-- Claim C5, counterexample: the text `"9/15/2024\n7:30 pm"` contains a line
matching a date pattern (which parses) and a separate valid time-of-day
token, but the extractor's `start` is the **midnight** timestamp of the
date alone; the merged date+time instant — which the platform parser
itself would produce for `"9/15/2024 7:30 pm"` — is
`2024-09-15T19:30:00.000Z`, and `start` is not it. -/
theorem no_merge_counterexample :
    (parseEventFromText jsDateModel "9/15/2024\n7:30 pm").start_dt =
      "2024-09-15T00:00:00.000Z" ∧
    jsDateModel "9/15/2024 7:30 pm" = some 1726428600000 ∧
    toISOString 1726428600000 = "2024-09-15T19:30:00.000Z" ∧
    ¬ (parseEventFromText jsDateModel "9/15/2024\n7:30 pm").start_dt =
        "2024-09-15T19:30:00.000Z" := by
  have h1 : (parseEventFromText jsDateModel "9/15/2024\n7:30 pm").start_dt =
      "2024-09-15T00:00:00.000Z" := by with_unfolding_all rfl
  refine ⟨h1, ?_, ?_, ?_⟩
  · with_unfolding_all rfl
  · with_unfolding_all rfl
  · rw [h1]; decide

/-- Claim C5, amended:  The merge branch is dead code: the extractor
equals its merge-free variant on every input and platform parser
(`start_dt` is always either empty or already contains `T`, so the
merge guard never passes).  When some date-pattern match parses and a
time token is present, the confidence is clamped to exactly `1`
(`0.5 + 0.3 + 0.2` already reaches the cap), while `start` remains the
unmerged date timestamp. -/
theorem time_scan_never_merges (jsDate : String → Option Int) (text : String)
    (hp : allDateParses jsDate text ≠ []) (ht : hasTimeToken text = true) :
    parseEventFromText jsDate text = parseEventFromTextNoMerge jsDate text ∧
    (parseEventFromText jsDate text).confidence = 1 := by
  refine ⟨parse_eq_noMerge jsDate text, ?_⟩
  obtain ⟨b, hb, hconf⟩ := parse_confidence_eq jsDate text
  have hn : (1 : ℚ) ≤ ((allDateParses jsDate text).length : ℚ) := by
    have := List.length_pos.mpr hp
    exact_mod_cast this
  rw [hconf, ht]
  simp only [if_true]
  have h1 : (1 : ℚ) ≤ 0.5 + 0.3 * ((allDateParses jsDate text).length : ℚ) +
      0.2 + b := by linarith
  exact min_eq_right h1

/-- A concrete instance discharging the hypotheses of
`time_scan_never_merges`. -/
theorem time_scan_never_merges_witness :
    allDateParses jsDateModel "9/16/2024\n8:00 pm" ≠ [] ∧
    hasTimeToken "9/16/2024\n8:00 pm" = true ∧
    parseEventFromText jsDateModel "9/16/2024\n8:00 pm" =
      parseEventFromTextNoMerge jsDateModel "9/16/2024\n8:00 pm" ∧
    (parseEventFromText jsDateModel "9/16/2024\n8:00 pm").confidence = 1 := by
  have hp : allDateParses jsDateModel "9/16/2024\n8:00 pm" =
      [1726444800000] := by with_unfolding_all rfl
  have hne : allDateParses jsDateModel "9/16/2024\n8:00 pm" ≠ [] := by
    rw [hp]; decide
  have ht : hasTimeToken "9/16/2024\n8:00 pm" = true := by
    with_unfolding_all rfl
  exact ⟨hne, ht,
    (time_scan_never_merges jsDateModel "9/16/2024\n8:00 pm" hne ht).1,
    (time_scan_never_merges jsDateModel "9/16/2024\n8:00 pm" hne ht).2⟩

/-! ## C6: validation before side effects -/

/-- Claim C6:  Whenever the draft query selects no row — in particular
when `draftEventId` is omitted and no draft of the user has
`needs_confirmation = false` — or selects a draft whose `start_dt` is
empty, the handler fails with the corresponding `ValidationError`
before any credential lookup or provider call; no event record is
inserted and no draft is updated. -/
theorem commit_validates_before_side_effects (s : Store) (req : CommitRequest)
    (w : ExternalWorld) (jsDate : String → Option Int)
    (h : selectDraft s req = .ok none ∨
         ∃ d, selectDraft s req = .ok (some d) ∧ d.start_dt = "") :
    (∃ er, (commitHandler s req w jsDate).result = .error er ∧
       er.isValidation = true) ∧
    (commitHandler s req w jsDate).credentialLookups = 0 ∧
    (commitHandler s req w jsDate).providerCalls = 0 ∧
    (commitHandler s req w jsDate).insertedEvents = [] ∧
    (commitHandler s req w jsDate).draftUpdated = none := by
  rcases h with h | ⟨d, hd, hs⟩
  · simp [commitHandler, h, CommitError.isValidation]
  · simp [commitHandler, hd, hs, CommitError.isValidation]

/-- A store with a single pending (`needs_confirmation = true`) draft:
an id-less commit for its user selects nothing and is rejected with a
validation error before any external call. -/
theorem commit_validates_witness :
    selectDraft ⟨[⟨"d1", "u1", "Club Night", "2024-09-15T19:00:00Z", "", "",
        "", 0.7, true, 3⟩]⟩ ⟨"u1", none⟩ = .ok none ∧
    (∃ er, (commitHandler ⟨[⟨"d1", "u1", "Club Night",
        "2024-09-15T19:00:00Z", "", "", "", 0.7, true, 3⟩]⟩ ⟨"u1", none⟩
        ⟨.ok "tok", .ok ⟨"gid", "glink"⟩, true, true⟩ jsDateModel).result =
          .error er ∧ er.isValidation = true) ∧
    (commitHandler ⟨[⟨"d1", "u1", "Club Night", "2024-09-15T19:00:00Z", "",
        "", "", 0.7, true, 3⟩]⟩ ⟨"u1", none⟩
        ⟨.ok "tok", .ok ⟨"gid", "glink"⟩, true, true⟩
        jsDateModel).credentialLookups = 0 := by
  have h : selectDraft ⟨[⟨"d1", "u1", "Club Night", "2024-09-15T19:00:00Z",
      "", "", "", 0.7, true, 3⟩]⟩ ⟨"u1", none⟩ = .ok none := by
    with_unfolding_all rfl
  obtain ⟨h1, h2, _⟩ := commit_validates_before_side_effects _ _
    ⟨.ok "tok", .ok ⟨"gid", "glink"⟩, true, true⟩ jsDateModel (Or.inl h)
  exact ⟨h, h1, h2⟩

/-! ## C8: the two-hour default end -/

/-- The round-trip draft of the spec's testable property: absolute
start, no end. -/
def demoDraft : DraftEvent :=
  ⟨"d1", "u1", "Dinner", "2024-09-15T19:00:00Z", "", "", "", 0.9, false, 1⟩

/-- Claim C8, counterexample:  Committing a draft with
`start = "2024-09-15T19:00:00Z"` and no `end` yields the payload end
string `"2024-09-15T21:00:00.000Z"` — the same instant as the spec's
quoted `"2024-09-15T21:00:00Z"`, but not that string: `toISOString`
always renders milliseconds. -/
theorem payload_end_literal_counterexample :
    (buildGoogleEvent jsDateModel demoDraft).map GoogleCalendarEvent.endDateTime =
      some "2024-09-15T21:00:00.000Z" ∧
    ¬ ((some "2024-09-15T21:00:00.000Z" : Option String) =
        some "2024-09-15T21:00:00Z") := by
  exact ⟨by with_unfolding_all rfl, by decide⟩

/-- Claim C8, amended:  Whenever a committed draft's `start` parses to an
instant `t` and its `end` is empty, the provider payload passes `start`
through unchanged and sets `end` to `toISOString (t + 7200000)` —
exactly two hours after the start (rendered with milliseconds, e.g.
`2024-09-15T21:00:00.000Z` for the spec's example). -/
theorem payload_end_is_start_plus_two_hours (jsDate : String → Option Int)
    (d : DraftEvent) (t : Int) (hstart : jsDate d.start_dt = some t)
    (hend : d.end_dt = "") :
    buildGoogleEvent jsDate d = some
      { summary := if d.title != "" then d.title else "Event from Instagram"
        description := "Created from Instagram DM\n\n" ++ d.notes
        startDateTime := d.start_dt
        startTimeZone := "UTC"
        endDateTime := toISOString (t + 7200000)
        endTimeZone := "UTC"
        location := d.location
        remindersUseDefault := true } := by
  simp [buildGoogleEvent, hend, hstart]

/-- The spec's round-trip instance of `payload_end_is_start_plus_two_hours`:
the demo draft's start parses to `1726426800000` and the payload end is
two hours later. -/
theorem payload_end_witness :
    jsDateModel demoDraft.start_dt = some 1726426800000 ∧
    demoDraft.end_dt = "" ∧
    buildGoogleEvent jsDateModel demoDraft = some
      { summary := "Dinner"
        description := "Created from Instagram DM\n\n"
        startDateTime := "2024-09-15T19:00:00Z"
        startTimeZone := "UTC"
        endDateTime := toISOString (1726426800000 + 7200000)
        endTimeZone := "UTC"
        location := ""
        remindersUseDefault := true } ∧
    toISOString (1726426800000 + 7200000) = "2024-09-15T21:00:00.000Z" := by
  have h1 : jsDateModel demoDraft.start_dt = some 1726426800000 := by
    with_unfolding_all rfl
  have h2 : demoDraft.end_dt = "" := rfl
  refine ⟨h1, h2, ?_, by with_unfolding_all rfl⟩
  rw [payload_end_is_start_plus_two_hours jsDateModel demoDraft
    1726426800000 h1 h2]
  with_unfolding_all rfl

/-! ## C9: swallowed bookkeeping failures -/

/-- The committed draft used in the bookkeeping-failure scenarios. -/
def c9Draft : DraftEvent :=
  ⟨"d2", "u2", "Career Fair", "2024-09-15T19:00:00Z",
   "2024-09-15T20:00:00Z", "", "", 0.9, false, 7⟩

def c9Store : Store := ⟨[c9Draft]⟩

/-- Claim C9, counterexample:  The step-(d) insert tolerance is not the
only swallowed error: the subsequent draft-flag update's result object
is discarded too.  Here the insert succeeds, the update fails
(`draftUpdated = none`), and the handler still reports full success. -/
theorem update_failure_also_swallowed :
    (commitHandler c9Store ⟨"u2", some "d2"⟩
        ⟨.ok "tok", .ok ⟨"g2", "l2"⟩, true, false⟩ jsDateModel).result =
      .ok ⟨"g2", "l2", "Career Fair", "2024-09-15T19:00:00Z"⟩ ∧
    (commitHandler c9Store ⟨"u2", some "d2"⟩
        ⟨.ok "tok", .ok ⟨"g2", "l2"⟩, true, false⟩
        jsDateModel).insertedEvents.length = 1 ∧
    (commitHandler c9Store ⟨"u2", some "d2"⟩
        ⟨.ok "tok", .ok ⟨"g2", "l2"⟩, true, false⟩ jsDateModel).draftUpdated =
      none := by
  refine ⟨by with_unfolding_all rfl, by with_unfolding_all rfl,
    by with_unfolding_all rfl⟩

/-- Claim C9, amended:  Once selection, the start check, the credential
lookup, the payload build and the provider call have succeeded, the
handler reports success whatever happens to the two bookkeeping writes:
a failed `events` insert is logged and swallowed (no rollback — the
provider event's ids are still returned), and the draft-flag update's
result is never examined.  Every earlier failure, by contrast, aborts
the run with an error. -/
theorem commit_success_despite_bookkeeping_failures (s : Store)
    (req : CommitRequest) (w : ExternalWorld) (jsDate : String → Option Int)
    (d : DraftEvent) (g : GoogleCalendarEvent) (resp : ProviderResponse)
    (hsel : selectDraft s req = .ok (some d)) (hstart : d.start_dt ≠ "")
    (hcred : ∃ tok, w.credential = .ok tok)
    (hbuild : buildGoogleEvent jsDate d = some g)
    (hprov : w.provider = .ok resp) :
    (commitHandler s req w jsDate).result =
      .ok ⟨resp.id, resp.htmlLink, d.title, d.start_dt⟩ ∧
    (commitHandler s req w jsDate).providerCalls = 1 ∧
    (commitHandler s req w jsDate).insertedEvents =
      (if w.insertOk then [⟨req.userId, d.id, resp.id, "primary", g, resp⟩]
       else []) ∧
    (commitHandler s req w jsDate).draftUpdated =
      (if w.updateOk then some d.id else none) := by
  obtain ⟨tok, hc⟩ := hcred
  have hb : (d.start_dt == "") = false := beq_eq_false_iff_ne.mpr hstart
  simp [commitHandler, hsel, hc, hbuild, hprov, hb]

/-- The spec's scenario as an instance of
`commit_success_despite_bookkeeping_failures`: provider call succeeds,
the `events` insert fails, and the commit still reports success with
the draft flag updated. -/
theorem commit_bookkeeping_witness :
    selectDraft c9Store ⟨"u2", some "d2"⟩ = .ok (some c9Draft) ∧
    (commitHandler c9Store ⟨"u2", some "d2"⟩
        ⟨.ok "tok", .ok ⟨"g3", "l3"⟩, false, true⟩ jsDateModel).result =
      .ok ⟨"g3", "l3", "Career Fair", "2024-09-15T19:00:00Z"⟩ ∧
    (commitHandler c9Store ⟨"u2", some "d2"⟩
        ⟨.ok "tok", .ok ⟨"g3", "l3"⟩, false, true⟩ jsDateModel).insertedEvents =
      [] ∧
    (commitHandler c9Store ⟨"u2", some "d2"⟩
        ⟨.ok "tok", .ok ⟨"g3", "l3"⟩, false, true⟩ jsDateModel).draftUpdated =
      some "d2" := by
  have hsel : selectDraft c9Store ⟨"u2", some "d2"⟩ = .ok (some c9Draft) := by
    with_unfolding_all rfl
  have hbuild : buildGoogleEvent jsDateModel c9Draft = some
      { summary := "Career Fair"
        description := "Created from Instagram DM\n\n"
        startDateTime := "2024-09-15T19:00:00Z"
        startTimeZone := "UTC"
        endDateTime := "2024-09-15T20:00:00Z"
        endTimeZone := "UTC"
        location := ""
        remindersUseDefault := true } := by with_unfolding_all rfl
  obtain ⟨h1, _, h3, h4⟩ := commit_success_despite_bookkeeping_failures
    c9Store ⟨"u2", some "d2"⟩ ⟨.ok "tok", .ok ⟨"g3", "l3"⟩, false, true⟩
    jsDateModel c9Draft _ ⟨"g3", "l3"⟩ hsel (by decide) ⟨"tok", rfl⟩ hbuild rfl
  exact ⟨hsel, h1, h3, h4⟩

/-! ## C10: no cross-user commit through the explicit-id path -/

/-- Claim C10:  A commit request carrying an explicit `draftEventId`
whose draft rows all belong to someone else — in particular when the
draft exists but is owned by a different user — fails with the
draft-not-found validation error, and neither the credential provider
nor the calendar provider is contacted; nothing is inserted or
updated. -/
theorem commit_rejects_foreign_draft (s : Store) (req : CommitRequest)
    (did : String) (w : ExternalWorld) (jsDate : String → Option Int)
    (hreq : req.draftEventId = some did)
    (_hex : ∃ d ∈ s.drafts, d.id = did ∧ d.user_id ≠ req.userId)
    (hall : ∀ d ∈ s.drafts, d.id = did → d.user_id ≠ req.userId) :
    (commitHandler s req w jsDate).result = .error .noDraftFound ∧
    (commitHandler s req w jsDate).credentialLookups = 0 ∧
    (commitHandler s req w jsDate).providerCalls = 0 ∧
    (commitHandler s req w jsDate).insertedEvents = [] ∧
    (commitHandler s req w jsDate).draftUpdated = none := by
  have hfil : s.drafts.filter
      (fun d => d.user_id == req.userId && d.id == did) = [] := by
    rw [List.filter_eq_nil_iff]
    intro d hmem
    simp only [Bool.and_eq_true, beq_iff_eq, not_and]
    intro hu hid
    exact absurd hu (hall d hmem hid)
  have hsel : selectDraft s req = .ok none := by
    simp only [selectDraft, hreq, hfil]
  simp [commitHandler, hsel]

/-- The draft of another user targeted by the C10 scenario. -/
def foreignDraft : DraftEvent :=
  ⟨"d9", "alice", "Party", "2024-09-15T19:00:00Z", "", "", "", 0.9, false, 2⟩

def c10Store : Store := ⟨[foreignDraft]⟩

/-- Alice's confirmed draft cannot be committed by Bob via its explicit
id: an instance of `commit_rejects_foreign_draft`. -/
theorem commit_rejects_foreign_draft_witness :
    (∃ d ∈ c10Store.drafts, d.id = "d9" ∧ d.user_id ≠ "bob") ∧
    (commitHandler c10Store ⟨"bob", some "d9"⟩
        ⟨.ok "tok", .ok ⟨"gx", "lx"⟩, true, true⟩ jsDateModel).result =
      .error .noDraftFound ∧
    (commitHandler c10Store ⟨"bob", some "d9"⟩
        ⟨.ok "tok", .ok ⟨"gx", "lx"⟩, true, true⟩
        jsDateModel).credentialLookups = 0 := by
  have hex : ∃ d ∈ c10Store.drafts, d.id = "d9" ∧ d.user_id ≠ "bob" :=
    ⟨foreignDraft, List.mem_singleton.mpr rfl, rfl, by decide⟩
  obtain ⟨h1, h2, _⟩ := commit_rejects_foreign_draft c10Store
    ⟨"bob", some "d9"⟩ "d9" ⟨.ok "tok", .ok ⟨"gx", "lx"⟩, true, true⟩
    jsDateModel rfl hex
    (by intro d hmem hid
        simp only [c10Store, List.mem_singleton] at hmem
        subst hmem
        decide)
  exact ⟨hex, h1, h2⟩
